import Mathlib

/-!
Verification of the statistical core of the NASA weather-probability backend.

The definitions below are a shallow embedding of the JavaScript source:

* `Processor` methods from `src/backend/models/SavedQuery.js`
  (`computeStats`, `mean`, `median`, `standardDeviation`, `percentile`,
  `createHistogram`, `analyzeTrend`, `linearRegression`, `generateSummary`,
  `assessDataQuality`);
* `DataFetcher.generateMockData` from `src/backend/services/dataFetcher.js`
  (the (year, day-of-year) window assembly; the randomized value generation
  and date rendering are collaborator effects no claim depends on).

Modelling conventions:

* JavaScript numbers are modelled by `JSNum`: an exact rational together
  with the non-finite values `NaN`, `+Infinity`, `-Infinity`; IEEE
  comparison and arithmetic rules for the non-finite values are spelled
  out case by case.  Rounding of binary floats is not modelled.
* A data point's `value` slot is modelled by `JSVal`: `null`, `undefined`,
  `NaN` or a finite rational.  (The synthetic data source only produces
  finite values; infinite sample values are outside the modelled domain.)
* `toFixed(d)` produces a decimal string in JS; the model keeps the
  correspondingly rounded rational (`roundTo`), since no claim inspects
  the digits themselves.
* A JavaScript fault (e.g. calling `.toFixed` on `undefined`) is modelled
  by `Option.none` in the result type of the function that would throw.
* `BinCounts[NaN]++` on a JS array stores into a stray string key and
  leaves every numeric entry untouched; the model makes such an update a
  no-op on the counts list (`binIndexJS` returns `none` for a NaN index).
-/

/-- A JavaScript number: `NaN`, `±Infinity`, or a finite value
(modelled as an exact rational). -/
inductive JSNum where
  | nan : JSNum
  | posInf : JSNum
  | negInf : JSNum
  | fin : ℚ → JSNum
deriving DecidableEq

namespace JSNum

/-- `isFinite` in the JS sense. -/
def isFinite : JSNum → Bool
  | fin _ => true
  | _ => false

/-- JS `<` on numbers: any comparison involving `NaN` is false. -/
def lt : JSNum → JSNum → Bool
  | nan, _ => false
  | _, nan => false
  | negInf, negInf => false
  | negInf, _ => true
  | _, negInf => false
  | posInf, _ => false
  | fin _, posInf => true
  | fin a, fin b => decide (a < b)

/-- JS `>` on numbers. -/
def gt (a b : JSNum) : Bool := lt b a

/-- JS unary minus. -/
def neg : JSNum → JSNum
  | nan => nan
  | posInf => negInf
  | negInf => posInf
  | fin q => fin (-q)

/-- JS `+` on numbers. -/
def add : JSNum → JSNum → JSNum
  | nan, _ => nan
  | _, nan => nan
  | posInf, negInf => nan
  | negInf, posInf => nan
  | posInf, _ => posInf
  | _, posInf => posInf
  | negInf, _ => negInf
  | _, negInf => negInf
  | fin a, fin b => fin (a + b)

/-- JS `-` on numbers. -/
def sub (a b : JSNum) : JSNum := add a (neg b)

/-- JS `*` on numbers (no signed zero: the model has a single zero,
so `±Infinity * 0 = NaN` and signs of infinite products come from the
sign of the finite factor). -/
def mul : JSNum → JSNum → JSNum
  | nan, _ => nan
  | _, nan => nan
  | posInf, posInf => posInf
  | posInf, negInf => negInf
  | negInf, posInf => negInf
  | negInf, negInf => posInf
  | posInf, fin q => if q = 0 then nan else if 0 < q then posInf else negInf
  | fin q, posInf => if q = 0 then nan else if 0 < q then posInf else negInf
  | negInf, fin q => if q = 0 then nan else if 0 < q then negInf else posInf
  | fin q, negInf => if q = 0 then nan else if 0 < q then negInf else posInf
  | fin a, fin b => fin (a * b)

/-- JS `/` on numbers (division by the model's single zero behaves like
division by `+0`). -/
def div : JSNum → JSNum → JSNum
  | nan, _ => nan
  | _, nan => nan
  | posInf, posInf => nan
  | posInf, negInf => nan
  | negInf, posInf => nan
  | negInf, negInf => nan
  | posInf, fin q => if 0 ≤ q then posInf else negInf
  | negInf, fin q => if 0 ≤ q then negInf else posInf
  | fin _, posInf => fin 0
  | fin _, negInf => fin 0
  | fin a, fin b =>
    if b = 0 then (if a = 0 then nan else if 0 < a then posInf else negInf)
    else fin (a / b)

end JSNum

/-- Round a rational to `d` decimal places (the numeric content of JS
`toFixed(d)`; ties round up, approximating the float rounding no claim
depends on). -/
def roundTo (d : ℕ) (q : ℚ) : ℚ := (Int.floor (q * (10 ^ d) + 1/2) : ℚ) / (10 ^ d)

/-- `toFixed(d)` lifted to `JSNum`: non-finite inputs render as the
strings "NaN" / "Infinity", kept here as the non-finite value itself. -/
def jsToFixed (d : ℕ) : JSNum → JSNum
  | JSNum.fin q => JSNum.fin (roundTo d q)
  | x => x

/-- A data point's `value` slot: `null`, `undefined`, `NaN`, or a finite
number. -/
inductive JSVal where
  | null : JSVal
  | undef : JSVal
  | nan : JSVal
  | fin : ℚ → JSVal
deriving DecidableEq

namespace JSVal

/-- The validity filter used throughout the source:
`v !== null && v !== undefined && !isNaN(v)`. -/
def isValid : JSVal → Bool
  | fin _ => true
  | _ => false

/-- JS `ToNumber` coercion applied when a value enters arithmetic:
`null` coerces to `0`, `undefined` to `NaN`. -/
def toNum : JSVal → JSNum
  | null => JSNum.fin 0
  | undef => JSNum.nan
  | nan => JSNum.nan
  | fin q => JSNum.fin q

end JSVal

/-- One element of the `dataPoints` array handed to the processor
(`{date, value, year, dayOfYear}`); only the fields the processor reads
are modelled.  The source falls back to parsing the `date` string when
`year` is absent; in the model every point carries its year. -/
structure DataPoint where
  year : ℕ
  value : JSVal
deriving DecidableEq

/-- `dataPoints.map(d => d.value).filter(v => v !== null && v !== undefined
&& !isNaN(v))`, with the surviving finite values exposed as rationals. -/
def validValues (dataPoints : List DataPoint) : List ℚ :=
  dataPoints.filterMap (fun d =>
    match d.value with
    | JSVal.fin q => some q
    | _ => none)

/-- Insert into an ascending-sorted list (helper for `sortQ`). -/
def insertSorted (x : ℚ) : List ℚ → List ℚ
  | [] => [x]
  | y :: ys => if x ≤ y then x :: y :: ys else y :: insertSorted x ys

/-- `[...values].sort((a, b) => a - b)`: ascending numeric sort. -/
def sortQ (l : List ℚ) : List ℚ := l.foldr insertSorted []

/-- `Processor.mean` on a list of (valid, finite) values. -/
def meanQ (values : List ℚ) : ℚ := values.sum / values.length

/-- `Processor.median` on the sorted values; `none` models the `NaN`
produced by indexing out of range on an empty array. -/
def medianJS (sortedValues : List ℚ) : Option ℚ :=
  let mid := sortedValues.length / 2
  if sortedValues.length % 2 = 0 then
    match sortedValues.get? (mid - 1), sortedValues.get? mid with
    | some a, some b => some ((a + b) / 2)
    | _, _ => none
  else
    sortedValues.get? mid

/-- `Processor.standardDeviation` squared: the mean of squared deviations.
The source returns `Math.sqrt` of this; the square root has no exact
rational value and no claim depends on it, so the model keeps the
variance. -/
def varianceQ (values : List ℚ) : ℚ :=
  meanQ (values.map (fun v => (v - meanQ values) ^ 2))

/-- Index an array by an `Int`, as JS does: a negative index reads a
missing property (`undefined`, here `none`). -/
def getInt? (l : List ℚ) (i : ℤ) : Option ℚ :=
  if i < 0 then none else l.get? i.toNat

/-- `Processor.percentile(sortedValues, p)`:
linear-interpolation order statistic, `null` on an empty array. -/
def percentileJS (sortedValues : List ℚ) (p : ℚ) : Option ℚ :=
  if sortedValues.length = 0 then none
  else
    let index : ℚ := (p / 100) * ((sortedValues.length : ℚ) - 1)
    let lower : ℤ := Int.floor index
    let upper : ℤ := Int.ceil index
    let weight : ℚ := index - lower
    if lower = upper then getInt? sortedValues lower
    else
      match getInt? sortedValues lower, getInt? sortedValues upper with
      | some a, some b => some (a * (1 - weight) + b * weight)
      | _, _ => none

/-- The histogram record returned by `createHistogram`; `binWidth` is
absent (`none`) in the empty-input early return. -/
structure Histogram where
  bins : List ℚ
  counts : List ℕ
  binWidth : Option ℚ
deriving DecidableEq

/-- The bin index `Math.floor((v - min) / binWidth)` with the two clamps,
as a JS array index.  `none` models the `NaN` index arising from `0/0`
when `binWidth = 0` and `v = min`: the clamps `NaN >= numBins` and
`NaN < 0` are both false, and `counts[NaN]++` writes a stray string key,
touching no numeric entry.  With `binWidth = 0` and `v ≠ min` the
quotient is `±Infinity`, which the clamps send to the last or first bin. -/
def binIndexJS (v vmin binWidth : ℚ) (numBins : ℕ) : Option ℕ :=
  if binWidth = 0 then
    if v = vmin then none
    else if vmin < v then some (numBins - 1)
    else some 0
  else
    let i : ℤ := Int.floor ((v - vmin) / binWidth)
    if (numBins : ℤ) ≤ i then some (numBins - 1)
    else if i < 0 then some 0
    else some i.toNat

/-- Increment entry `i` of a counts list (`counts[i]++`); off the end it
is a no-op on the numeric entries. -/
def bump : List ℕ → ℕ → List ℕ
  | [], _ => []
  | c :: cs, 0 => (c + 1) :: cs
  | c :: cs, Nat.succ n => c :: bump cs n

/-- `Processor.createHistogram(values, numBins)`. -/
def createHistogram (values : List ℚ) (numBins : ℕ) : Histogram :=
  match values with
  | [] => { bins := [], counts := [], binWidth := none }
  | v₀ :: vs =>
    let vmin := vs.foldl min v₀
    let vmax := vs.foldl max v₀
    let binWidth := (vmax - vmin) / numBins
    let bins := (List.range (numBins + 1)).map (fun i => vmin + i * binWidth)
    let counts := (v₀ :: vs).foldl
      (fun cs v =>
        match binIndexJS v vmin binWidth numBins with
        | some i => bump cs i
        | none => cs)
      (List.replicate numBins 0)
    { bins := bins.map (roundTo 2),
      counts := counts,
      binWidth := some (roundTo 2 binWidth) }

/-- The `stats.exceedance` record. -/
structure Exceedance where
  threshold : JSNum
  probability : ℚ
  count : ℕ
  percentage : ℚ
deriving DecidableEq

/-- The `stats.percentiles` record. -/
structure Percentiles where
  p10 : Option ℚ
  p25 : Option ℚ
  p50 : Option ℚ
  p75 : Option ℚ
  p90 : Option ℚ
  p95 : Option ℚ
  p99 : Option ℚ
deriving DecidableEq

/-- The object returned by `computeStats`.  Fields the zero-count early
return leaves absent are `Option`s defaulting to `none`; `std` stores the
variance (see `varianceQ`). -/
structure Stats where
  error : Option String := none
  count : ℕ := 0
  mean : Option ℚ := none
  median : Option ℚ := none
  std : Option ℚ := none
  min : Option ℚ := none
  max : Option ℚ := none
  percentiles : Option Percentiles := none
  exceedance : Option Exceedance := none
  distribution : Option Histogram := none
deriving DecidableEq

/-- `Processor.computeStats(dataPoints, threshold)`. -/
def computeStats (dataPoints : List DataPoint) (threshold : Option JSNum) : Stats :=
  let values := validValues dataPoints
  match values with
  | [] => { error := some "No valid data points", count := 0 }
  | _ :: _ =>
    let sorted := sortQ values
    let exceedance : Option Exceedance :=
      match threshold with
      | none => none
      | some t =>
        let exceedCount := (values.filter (fun v => JSNum.gt (JSNum.fin v) t)).length
        some { threshold := t,
               probability := (exceedCount : ℚ) / values.length,
               count := exceedCount,
               percentage := roundTo 1 (((exceedCount : ℚ) / values.length) * 100) }
    { error := none,
      count := values.length,
      mean := some (meanQ values),
      median := medianJS sorted,
      std := some (varianceQ values),
      min := sorted.head?,
      max := sorted.getLast?,
      percentiles := some
        { p10 := percentileJS sorted 10,
          p25 := percentileJS sorted 25,
          p50 := percentileJS sorted 50,
          p75 := percentileJS sorted 75,
          p90 := percentileJS sorted 90,
          p95 := percentileJS sorted 95,
          p99 := percentileJS sorted 99 },
      exceedance := exceedance,
      distribution := some (createHistogram values 20) }

/-- Three-way comparison of two character lists by code point: the order
JavaScript's default `Array.prototype.sort` comparator induces on
strings. -/
def cmpChars : List Char → List Char → Ordering
  | [], [] => Ordering.eq
  | [], _ :: _ => Ordering.lt
  | _ :: _, [] => Ordering.gt
  | a :: as, b :: bs =>
    if a.toNat < b.toNat then Ordering.lt
    else if b.toNat < a.toNat then Ordering.gt
    else cmpChars as bs

/-- String order on naturals through their decimal rendering: how JS
default `sort()` orders the year keys of `yearlyMeans`. -/
def reprLe (a b : ℕ) : Prop := cmpChars (Nat.repr a).data (Nat.repr b).data ≠ Ordering.gt

instance (a b : ℕ) : Decidable (reprLe a b) := by
  unfold reprLe; infer_instance

/-- Insert a year into the ascending-numeric distinct key list: object
keys that look like array indices enumerate in ascending numeric order,
each key once. -/
def insertYear (y : ℕ) : List ℕ → List ℕ
  | [] => [y]
  | z :: zs =>
    if y < z then y :: z :: zs
    else if y = z then z :: zs
    else z :: insertYear y zs

/-- The distinct keys of the `yearlyMeans` object after all pushes:
every year occurring in `dataPoints`, each once, in ascending numeric
order (the integer-key enumeration order of `Object.keys`). -/
def yearsOf (dataPoints : List DataPoint) : List ℕ :=
  dataPoints.foldl (fun acc p => insertYear p.year acc) []

/-- Insert into a list sorted by `reprLe` (helper for `sortByRepr`). -/
def insertByRepr (y : ℕ) : List ℕ → List ℕ
  | [] => [y]
  | z :: zs => if reprLe y z then y :: z :: zs else z :: insertByRepr y zs

/-- `Object.keys(yearlyMeans).sort()`: the default sort compares keys as
strings, so the distinct years end up in decimal-string order. -/
def sortByRepr (l : List ℕ) : List ℕ := l.foldr insertByRepr []

/-- `Processor.mean` as the source applies it inside `analyzeTrend`,
where the pushed values were never filtered: `reduce((sum, v) => sum + v,
0) / values.length` under JS coercion. -/
def jsMean (vs : List JSVal) : JSNum :=
  JSNum.div (vs.foldl (fun acc v => JSNum.add acc v.toNum) (JSNum.fin 0))
    (JSNum.fin vs.length)

/-- One element of `trendData` / `yearlyMeans`. -/
structure YearEntry where
  year : ℕ
  mean : JSNum
  count : ℕ
deriving DecidableEq

/-- The `trend` record of `analyzeTrend`'s result; `slope` and
`changePerDecade` hold the `toFixed(4)` / `toFixed(2)` renderings
(kept as rounded numbers, see `jsToFixed`). -/
structure Trend where
  slope : JSNum
  direction : String
  changePerDecade : JSNum
deriving DecidableEq

/-- The object returned by `analyzeTrend`. -/
structure TrendResult where
  yearlyMeans : List YearEntry
  trend : Trend
deriving DecidableEq

/-- `Processor.linearRegression(data)` over the year/mean pairs, with JS
number arithmetic (a `NaN` yearly mean propagates into the slope). -/
def linearRegression (data : List YearEntry) : JSNum :=
  if data.length < 2 then JSNum.fin 0
  else
    let n : JSNum := JSNum.fin data.length
    let sumX := data.foldl (fun s d => JSNum.add s (JSNum.fin d.year)) (JSNum.fin 0)
    let sumY := data.foldl (fun s d => JSNum.add s d.mean) (JSNum.fin 0)
    let sumXY := data.foldl (fun s d => JSNum.add s (JSNum.mul (JSNum.fin d.year) d.mean)) (JSNum.fin 0)
    let sumX2 := data.foldl (fun s d => JSNum.add s (JSNum.fin ((d.year : ℚ) * d.year))) (JSNum.fin 0)
    JSNum.div (JSNum.sub (JSNum.mul n sumXY) (JSNum.mul sumX sumY))
      (JSNum.sub (JSNum.mul n sumX2) (JSNum.mul sumX sumX))

/-- The values pushed into `yearlyMeans[year]` for one year: the values
of all points with that year, in traversal order, unfiltered. -/
def yearGroup (dataPoints : List DataPoint) (y : ℕ) : List JSVal :=
  (dataPoints.filter (fun p => p.year == y)).map (fun p => p.value)

/-- `Processor.analyzeTrend(dataPoints)`. -/
def analyzeTrend (dataPoints : List DataPoint) : TrendResult :=
  let keys := sortByRepr (yearsOf dataPoints)
  let trendData : List YearEntry := keys.map (fun y =>
    { year := y,
      mean := jsMean (yearGroup dataPoints y),
      count := (yearGroup dataPoints y).length })
  let slope := linearRegression trendData
  { yearlyMeans := trendData,
    trend :=
      { slope := jsToFixed 4 slope,
        direction :=
          if JSNum.gt slope (JSNum.fin 0) then "increasing"
          else if JSNum.lt slope (JSNum.fin 0) then "decreasing"
          else "stable",
        changePerDecade := jsToFixed 2 (JSNum.mul slope (JSNum.fin 10)) } }

/-- Decimal rendering of a rational for the summary strings (stands in
for JS number-to-string; no claim inspects the digits). -/
def fmtQ (q : ℚ) : String := toString q

/-- The qualitative band appended to the exceedance sentence. -/
def probBand (prob : ℚ) : String :=
  if prob < 10 then " This is a rare occurrence."
  else if prob < 30 then " This happens occasionally."
  else if prob < 60 then " This is fairly common."
  else " This is very likely."

/-- Rendering of the optional threshold inside the template literal. -/
def fmtThreshold : Option JSNum → String
  | none => "null"
  | some JSNum.nan => "NaN"
  | some JSNum.posInf => "Infinity"
  | some JSNum.negInf => "-Infinity"
  | some (JSNum.fin q) => fmtQ q

/-- `Processor.generateSummary(stats, variable, threshold)`.  The result
is `none` exactly when the source would throw: with no exceedance record
it reads `stats.mean.toFixed(1)` (and median/min/max likewise), a
`TypeError` when those fields are absent. -/
def generateSummary (stats : Stats) (varName : String) (threshold : Option JSNum) : Option String :=
  match stats.exceedance with
  | some e =>
    let prob := e.percentage
    some ("There is a " ++ fmtQ prob ++ "% chance that " ++ varName ++
      " will exceed " ++ fmtThreshold threshold ++
      " based on historical data (" ++ toString stats.count ++ " observations)." ++
      probBand prob)
  | none =>
    match stats.mean, stats.median, stats.min, stats.max with
    | some m, some md, some mn, some mx =>
      some ("Historical " ++ varName ++ ": mean=" ++ fmtQ (roundTo 1 m) ++
        ", median=" ++ fmtQ (roundTo 1 md) ++
        ", range=[" ++ fmtQ (roundTo 1 mn) ++ ", " ++ fmtQ (roundTo 1 mx) ++ "]")
    | _, _, _, _ => none

/-- The object returned by `assessDataQuality`.  `missingPercent` is the
`toFixed(1)` string; the comparisons in `quality` and `warning` coerce it
back to a number, so the model keeps the rounded number (`NaN` for the
`0/0` of an empty input). -/
structure Quality where
  total : ℕ
  valid : ℕ
  missing : ℕ
  missingPercent : JSNum
  quality : String
  warning : Option String
deriving DecidableEq

/-- `Processor.assessDataQuality(dataPoints)`. -/
def assessDataQuality (dataPoints : List DataPoint) : Quality :=
  let total := dataPoints.length
  let valid := (dataPoints.filter (fun d => d.value.isValid)).length
  let missing := total - valid
  let missingPercent :=
    jsToFixed 1 (JSNum.mul (JSNum.div (JSNum.fin missing) (JSNum.fin total)) (JSNum.fin 100))
  { total := total,
    valid := valid,
    missing := missing,
    missingPercent := missingPercent,
    quality :=
      if JSNum.lt missingPercent (JSNum.fin 10) then "good"
      else if JSNum.lt missingPercent (JSNum.fin 30) then "fair"
      else "poor",
    warning :=
      if JSNum.gt missingPercent (JSNum.fin 30) then
        some "High percentage of missing data may affect reliability"
      else none }

/-- The integers from `a` to `b` inclusive (a JS `for` loop from `a`
while `≤ b`); empty when `b < a`. -/
def intRange (a b : ℤ) : List ℤ :=
  (List.range (b - a + 1).toNat).map (fun (i : ℕ) => a + (i : ℤ))

/-- The day-of-year wrap-around of `DataFetcher.generateMockData`:
`day < 1` wraps to the previous year's end, `day > 365` to the next
year's start. -/
def wrapDayYear (year day : ℤ) : ℤ × ℤ :=
  if day < 1 then (year - 1, 365 + day)
  else if day > 365 then (year + 1, day - 365)
  else (year, day)

/-- The (actualYear, actualDay) pairs pushed by
`DataFetcher.generateMockData(lat, lon, variable, dayOfYear, window,
yearRange)`, one per loop iteration in loop order.  The randomized value
and the date rendering attached to each pair are collaborator effects no
claim constrains. -/
def generateMockData (dayOfYear window yearStart yearEnd : ℤ) : List (ℤ × ℤ) :=
  (intRange yearStart yearEnd).flatMap (fun year =>
    (intRange (dayOfYear - window) (dayOfYear + window)).map (fun day =>
      wrapDayYear year day))

/-- A value whose JS `ToNumber` coercion is `NaN` (`undefined` or `NaN`):
inside `analyzeTrend`'s unfiltered mean such a value poisons the sum. -/
def isPoison : JSVal → Bool
  | JSVal.undef => true
  | JSVal.nan => true
  | _ => false

/-- JS `ToNumber` on the non-poison values (`null` coerces to 0). -/
def valAsQ : JSVal → ℚ
  | JSVal.fin q => q
  | _ => 0

theorem cmpChars_swap (a : List Char) : ∀ b, cmpChars b a = (cmpChars a b).swap := by
  induction a with
  | nil => intro b; cases b <;> rfl
  | cons x xs ih =>
    intro b
    cases b with
    | nil => rfl
    | cons y ys =>
      rcases Nat.lt_trichotomy x.toNat y.toNat with h | h | h
      · simp [cmpChars, h, Nat.lt_asymm h, Ordering.swap]
      · simp [cmpChars, h, Nat.lt_irrefl, ih]
      · simp [cmpChars, h, Nat.lt_asymm h, Ordering.swap]

theorem cmpChars_eq_congr (a : List Char) :
    ∀ b, cmpChars a b = Ordering.eq → ∀ c, cmpChars a c = cmpChars b c := by
  induction a with
  | nil =>
    intro b hb
    cases b with
    | nil => intro c; rfl
    | cons y ys => simp [cmpChars] at hb
  | cons x xs ih =>
    intro b hb
    cases b with
    | nil => simp [cmpChars] at hb
    | cons y ys =>
      have hxy : ¬ x.toNat < y.toNat ∧ ¬ y.toNat < x.toNat ∧ cmpChars xs ys = Ordering.eq := by
        by_cases h1 : x.toNat < y.toNat
        · simp [cmpChars, h1] at hb
        · by_cases h2 : y.toNat < x.toNat
          · simp [cmpChars, h1, h2] at hb
          · exact ⟨h1, h2, by simpa [cmpChars, h1, h2] using hb⟩
      obtain ⟨h1, h2, h3⟩ := hxy
      have hx : x.toNat = y.toNat := by omega
      intro c
      cases c with
      | nil => rfl
      | cons z zs => simp [cmpChars, hx, ih ys h3 zs]

theorem cmpChars_lt_trans (a : List Char) :
    ∀ b c, cmpChars a b = Ordering.lt → cmpChars b c = Ordering.lt →
      cmpChars a c = Ordering.lt := by
  induction a with
  | nil =>
    intro b c hab hbc
    cases c with
    | nil =>
      cases b with
      | nil => simp [cmpChars] at hab
      | cons y ys => simp [cmpChars] at hbc
    | cons z zs => rfl
  | cons x xs ih =>
    intro b c hab hbc
    cases b with
    | nil => simp [cmpChars] at hab
    | cons y ys =>
      cases c with
      | nil => simp [cmpChars] at hbc
      | cons z zs =>
        by_cases h1 : x.toNat < y.toNat
        · by_cases h2 : y.toNat < z.toNat
          · simp [cmpChars, show x.toNat < z.toNat by omega]
          · by_cases h3 : z.toNat < y.toNat
            · simp [cmpChars, h2, h3] at hbc
            · have : y.toNat = z.toNat := by omega
              simp [cmpChars, show x.toNat < z.toNat by omega]
        · by_cases h4 : y.toNat < x.toNat
          · simp [cmpChars, h1, h4] at hab
          · have hxy : x.toNat = y.toNat := by omega
            have hab' : cmpChars xs ys = Ordering.lt := by simpa [cmpChars, h1, h4] using hab
            by_cases h2 : y.toNat < z.toNat
            · simp [cmpChars, hxy ▸ h2]
            · by_cases h3 : z.toNat < y.toNat
              · simp [cmpChars, h2, h3] at hbc
              · have hbc' : cmpChars ys zs = Ordering.lt := by simpa [cmpChars, h2, h3] using hbc
                simp [cmpChars, hxy, h2, h3, ih ys zs hab' hbc']

theorem reprLe_total (a b : ℕ) : reprLe a b ∨ reprLe b a := by
  unfold reprLe
  cases h : cmpChars (Nat.repr a).data (Nat.repr b).data with
  | lt => left; simp [h]
  | eq => left; simp [h]
  | gt => right; rw [cmpChars_swap, h]; simp [Ordering.swap]

theorem reprLe_trans {a b c : ℕ} (hab : reprLe a b) (hbc : reprLe b c) : reprLe a c := by
  unfold reprLe at *
  cases h1 : cmpChars (Nat.repr a).data (Nat.repr b).data with
  | gt => exact absurd h1 hab
  | lt =>
    cases h2 : cmpChars (Nat.repr b).data (Nat.repr c).data with
    | gt => exact absurd h2 hbc
    | lt => simp [cmpChars_lt_trans _ _ _ h1 h2]
    | eq =>
      have h3 : cmpChars (Nat.repr b).data (Nat.repr a).data = Ordering.lt.swap := by
        rw [cmpChars_swap, h1]
      have h4 := cmpChars_eq_congr _ _ h2 (Nat.repr a).data
      have h6 : cmpChars (Nat.repr c).data (Nat.repr a).data = Ordering.gt := by
        rw [← h4, h3]; rfl
      have h7 := cmpChars_swap (Nat.repr a).data (Nat.repr c).data
      rw [h6] at h7
      cases h8 : cmpChars (Nat.repr a).data (Nat.repr c).data <;>
        simp [h8, Ordering.swap] at h7 ⊢
  | eq =>
    rw [cmpChars_eq_congr _ _ h1 (Nat.repr c).data]
    exact hbc

theorem mem_insertByRepr (y a : ℕ) : ∀ l : List ℕ, a ∈ insertByRepr y l ↔ a = y ∨ a ∈ l := by
  intro l
  induction l with
  | nil => simp [insertByRepr]
  | cons z zs ih =>
    unfold insertByRepr
    split
    · simp
    · simp [ih]; tauto

theorem mem_sortByRepr (a : ℕ) : ∀ l : List ℕ, a ∈ sortByRepr l ↔ a ∈ l := by
  intro l
  induction l with
  | nil => simp [sortByRepr]
  | cons z zs ih =>
    show a ∈ insertByRepr z (sortByRepr zs) ↔ _
    rw [mem_insertByRepr]
    simp [ih]

theorem pairwise_insertByRepr (y : ℕ) :
    ∀ l : List ℕ, l.Pairwise reprLe → (insertByRepr y l).Pairwise reprLe := by
  intro l
  induction l with
  | nil => intro _; simp [insertByRepr]
  | cons z zs ih =>
    intro h
    rw [List.pairwise_cons] at h
    obtain ⟨hz, hzs⟩ := h
    unfold insertByRepr
    split
    · rename_i hyz
      rw [List.pairwise_cons]
      refine ⟨?_, List.pairwise_cons.mpr ⟨hz, hzs⟩⟩
      intro b hb
      rcases List.mem_cons.mp hb with rfl | hb'
      · exact hyz
      · exact reprLe_trans hyz (hz b hb')
    · rename_i hyz
      have hzy : reprLe z y := (reprLe_total y z).resolve_left hyz
      rw [List.pairwise_cons]
      refine ⟨?_, ih hzs⟩
      intro b hb
      rcases (mem_insertByRepr y b zs).mp hb with rfl | hb'
      · exact hzy
      · exact hz b hb'

theorem sortByRepr_pairwise : ∀ l : List ℕ, (sortByRepr l).Pairwise reprLe := by
  intro l
  induction l with
  | nil => simp [sortByRepr]
  | cons z zs ih => exact pairwise_insertByRepr z (sortByRepr zs) ih

theorem mem_insertYear (y a : ℕ) : ∀ l : List ℕ, a ∈ insertYear y l ↔ a = y ∨ a ∈ l := by
  intro l
  induction l with
  | nil => simp [insertYear]
  | cons z zs ih =>
    unfold insertYear
    split
    · simp
    · split
      · rename_i hyz
        subst hyz
        simp
      · simp [ih]; tauto

theorem mem_yearsOf_aux (y : ℕ) :
    ∀ (pts : List DataPoint) (acc : List ℕ),
      y ∈ pts.foldl (fun acc p => insertYear p.year acc) acc ↔
        y ∈ acc ∨ ∃ p ∈ pts, p.year = y := by
  intro pts
  induction pts with
  | nil => simp
  | cons p ps ih =>
    intro acc
    show y ∈ ps.foldl _ (insertYear p.year acc) ↔ _
    rw [ih, mem_insertYear]
    simp
    tauto

theorem mem_yearsOf (pts : List DataPoint) (y : ℕ) :
    y ∈ yearsOf pts ↔ ∃ p ∈ pts, p.year = y := by
  unfold yearsOf
  rw [mem_yearsOf_aux]
  simp

theorem foldl_add_toNum_nan :
    ∀ vs : List JSVal, vs.foldl (fun acc v => JSNum.add acc v.toNum) JSNum.nan = JSNum.nan := by
  intro vs
  induction vs with
  | nil => rfl
  | cons v rest ih =>
    show rest.foldl _ (JSNum.add JSNum.nan v.toNum) = JSNum.nan
    cases v <;> exact ih

theorem foldl_add_toNum (vs : List JSVal) :
    ∀ q : ℚ, vs.foldl (fun acc v => JSNum.add acc v.toNum) (JSNum.fin q)
      = if vs.any isPoison then JSNum.nan else JSNum.fin (q + (vs.map valAsQ).sum) := by
  induction vs with
  | nil => intro q; simp
  | cons v rest ih =>
    intro q
    cases v with
    | null =>
      show rest.foldl _ (JSNum.add (JSNum.fin q) (JSNum.fin 0)) = _
      rw [show JSNum.add (JSNum.fin q) (JSNum.fin 0) = JSNum.fin (q + 0) from rfl]
      rw [ih]
      simp [isPoison, valAsQ]
    | undef =>
      show rest.foldl _ (JSNum.add (JSNum.fin q) JSNum.nan) = _
      rw [show JSNum.add (JSNum.fin q) JSNum.nan = JSNum.nan from rfl, foldl_add_toNum_nan]
      simp [isPoison]
    | nan =>
      show rest.foldl _ (JSNum.add (JSNum.fin q) JSNum.nan) = _
      rw [show JSNum.add (JSNum.fin q) JSNum.nan = JSNum.nan from rfl, foldl_add_toNum_nan]
      simp [isPoison]
    | fin r =>
      show rest.foldl _ (JSNum.add (JSNum.fin q) (JSNum.fin r)) = _
      rw [show JSNum.add (JSNum.fin q) (JSNum.fin r) = JSNum.fin (q + r) from rfl]
      rw [ih]
      simp [isPoison, valAsQ]
      split
      · rfl
      · rw [JSNum.fin.injEq]; ring

theorem jsMean_char (vs : List JSVal) (h : vs ≠ []) :
    jsMean vs = if vs.any isPoison then JSNum.nan
                else JSNum.fin ((vs.map valAsQ).sum / vs.length) := by
  unfold jsMean
  rw [foldl_add_toNum]
  have hlen : ((vs.length : ℚ)) ≠ 0 := by
    simpa [List.length_eq_zero] using h
  split
  · rfl
  · simp [JSNum.div, hlen, zero_add]

theorem length_intRange (a b : ℤ) : (intRange a b).length = (b - a + 1).toNat := by
  simp [intRange]

theorem get?_intRange (a b : ℤ) (i : ℕ) (h : i < (b - a + 1).toNat) :
    (intRange a b).get? i = some (a + i) := by
  unfold intRange
  rw [List.get?_map, List.get?_range (by simpa using h)]
  rfl

theorem mem_intRange {a b x : ℤ} (h₁ : a ≤ x) (h₂ : x ≤ b) : x ∈ intRange a b := by
  unfold intRange
  rw [List.mem_map]
  refine ⟨(x - a).toNat, ?_, ?_⟩
  · rw [List.mem_range]
    omega
  · omega

theorem length_flatMap_uniform {α β : Type} (f : α → List β) (L : ℕ) :
    ∀ l : List α, (∀ x ∈ l, (f x).length = L) →
      (l.flatMap f).length = l.length * L := by
  intro l
  induction l with
  | nil => intro _; simp
  | cons x xs ih =>
    intro h
    rw [List.flatMap_cons, List.length_append, h x (by simp),
      ih (fun y hy => h y (by simp [hy]))]
    simp [List.length_cons]
    ring

theorem get?_flatMap_uniform {α β : Type} (f : α → List β) (L : ℕ) :
    ∀ (l : List α) (i j : ℕ) (a : α), (∀ x ∈ l, (f x).length = L) →
      l.get? i = some a → j < L →
      (l.flatMap f).get? (i * L + j) = (f a).get? j := by
  intro l
  induction l with
  | nil => intro i j a _ hga _; simp at hga
  | cons x xs ih =>
    intro i j a h hga hj
    rw [List.flatMap_cons]
    cases i with
    | zero =>
      have hax : x = a := by simpa using hga
      rw [List.get?_append]
      · rw [hax]
        simp
      · rw [h x (by simp)]
        simpa using hj
    | succ i' =>
      have hxl : (f x).length = L := h x (by simp)
      rw [List.get?_append_right (by rw [hxl]; nlinarith)]
      rw [hxl, show (i' + 1) * L + j - L = i' * L + j by ring_nf; omega]
      exact ih i' j a (fun y hy => h y (by simp [hy])) (by simpa using hga) hj

/-- C1: for a non-empty value set whose values are all identical
(`max == min`, `binWidth = 0`), the claim says the histogram puts every
value into bin 0.  In the source the bin index evaluates to
`Math.floor(0 / 0) = NaN`, both clamps are false on `NaN`, and
`counts[NaN]++` writes a stray key, so all twenty numeric counts stay 0:
no bin is populated at all. -/
theorem createHistogram_degenerate_counts_all_zero :
    (createHistogram [(5 : ℚ), 5, 5, 5] 20).counts = List.replicate 20 0 ∧
    ((createHistogram [(5 : ℚ), 5, 5, 5] 20).counts).sum = 0 := by
  constructor <;> norm_num [createHistogram, binIndexJS, List.replicate]

/-- C2: the claim says the counts of `createHistogram(V, 20)` always sum
to the number of finite values of `V`.  On `V = [5, 5]` the degenerate
`NaN` bin index drops every value, so the counts sum to 0, not 2; on a
non-degenerate input such as `[1, 2]` the invariant does hold. -/
theorem createHistogram_counts_sum_mismatch :
    ((createHistogram [(5 : ℚ), 5] 20).counts).sum = 0 ∧
    ((createHistogram [(1 : ℚ), 2] 20).counts).sum = 2 := by
  constructor
  · norm_num [createHistogram, binIndexJS, List.replicate]
  · norm_num [createHistogram, binIndexJS, List.replicate, bump]

/-- C3: on an empty or all-missing sample sequence, `computeStats` does
return `count = 0` with no numeric fields, but `generateSummary` applied
to that result faults (it reads `stats.mean.toFixed(1)` with `mean`
absent — modelled as `none`) instead of producing an "insufficient data"
sentence. -/
theorem computeStats_zero_count_summary_faults :
    computeStats [] none = { error := some "No valid data points", count := 0 } ∧
    computeStats [⟨2000, JSVal.null⟩, ⟨2000, JSVal.nan⟩] none
      = { error := some "No valid data points", count := 0 } ∧
    generateSummary (computeStats [] none) "temperature" none = none ∧
    generateSummary (computeStats [⟨2000, JSVal.null⟩, ⟨2000, JSVal.nan⟩] none)
      "temperature" none = none := by
  refine ⟨?_, ?_, ?_, ?_⟩ <;>
    norm_num [computeStats, validValues, List.filterMap, generateSummary]

/-- C10: on the empty sample sequence `assessDataQuality` does not fault:
`missingPercent` is the `NaN` of `0/0`, which fails both `< 10` and
`< 30`, so the tier falls through to `poor`, and the `NaN > 30` warning
test is false, so no warning is attached. -/
theorem assessDataQuality_empty :
    assessDataQuality [] =
      { total := 0, valid := 0, missing := 0, missingPercent := JSNum.nan,
        quality := "poor", warning := none } := by
  norm_num [assessDataQuality, jsToFixed, JSNum.mul, JSNum.div, JSNum.lt, JSNum.gt]

/-- C6 counterexample: the claim says a provided non-finite threshold
makes `computeStats` skip the exceedance computation and return stats
with no exceedance record.  With threshold `NaN` the source only checks
`threshold !== null`, so an exceedance record is attached (every
`v > NaN` comparison is false, giving count 0). -/
theorem computeStats_nan_threshold_attaches_exceedance :
    (computeStats [⟨2000, JSVal.fin 1⟩] (some JSNum.nan)).exceedance
      = some { threshold := JSNum.nan, probability := 0, count := 0, percentage := 0 } ∧
    (computeStats [⟨2000, JSVal.fin 1⟩] (some JSNum.nan)).exceedance ≠ none := by
  have h : (computeStats [⟨2000, JSVal.fin 1⟩] (some JSNum.nan)).exceedance
      = some { threshold := JSNum.nan, probability := 0, count := 0, percentage := 0 } := by
    norm_num [computeStats, validValues, List.filterMap, JSNum.gt, JSNum.lt, roundTo]
  refine ⟨h, ?_⟩
  rw [h]
  simp

/-- C4 counterexample: the claim says each year's mean averages only the
present (valid, finite) values and its count only counts them.  On a year
holding `null` and `10`, the source pushes the unfiltered values, so the
mean is `(0 + 10) / 2 = 5` and the count is 2 — not mean 10 with
count 1. -/
theorem analyzeTrend_averages_missing_value :
    (analyzeTrend [⟨2000, JSVal.null⟩, ⟨2000, JSVal.fin 10⟩]).yearlyMeans
      = [{ year := 2000, mean := JSNum.fin 5, count := 2 }] ∧
    (analyzeTrend [⟨2000, JSVal.null⟩, ⟨2000, JSVal.fin 10⟩]).yearlyMeans
      ≠ [{ year := 2000, mean := JSNum.fin 10, count := 1 }] := by
  have h : (analyzeTrend [⟨2000, JSVal.null⟩, ⟨2000, JSVal.fin 10⟩]).yearlyMeans
      = [{ year := 2000, mean := JSNum.fin 5, count := 2 }] := by
    norm_num [analyzeTrend, yearsOf, insertYear, sortByRepr, insertByRepr, yearGroup,
      jsMean, JSVal.toNum, JSNum.add, JSNum.div, List.filter]
  refine ⟨h, ?_⟩
  rw [h]
  intro hc
  have := List.head_eq_of_cons_eq hc
  rw [YearEntry.mk.injEq] at this
  have h5 : (5 : ℚ) = 10 := by
    have := this.2.1
    rwa [JSNum.fin.injEq] at this
  norm_num at h5

/-- C5: for every sample set with at least one valid value and every
finite threshold `t` (including 0), the exceedance record holds: count =
number of valid values strictly greater than `t`, probability =
count / valid count, percentage = probability x 100 rounded to one
decimal place. -/
theorem computeStats_exceedance_spec (pts : List DataPoint) (t : ℚ)
    (h : validValues pts ≠ []) :
    (computeStats pts (some (JSNum.fin t))).exceedance =
      some { threshold := JSNum.fin t,
             probability := (((validValues pts).filter (fun v => t < v)).length : ℚ)
               / (validValues pts).length,
             count := ((validValues pts).filter (fun v => t < v)).length,
             percentage := roundTo 1 ((((validValues pts).filter (fun v => t < v)).length : ℚ)
               / (validValues pts).length * 100) } := by
  unfold computeStats
  cases hv : validValues pts with
  | nil => exact absurd hv h
  | cons v vs => rfl

theorem computeStats_exceedance_spec_witness :
    validValues [⟨2000, JSVal.fin 1⟩, ⟨2000, JSVal.fin 3⟩] ≠ [] ∧
    (computeStats [⟨2000, JSVal.fin 1⟩, ⟨2000, JSVal.fin 3⟩] (some (JSNum.fin 2))).exceedance
      = some { threshold := JSNum.fin 2, probability := 1/2, count := 1, percentage := 50 } := by
  have hne : validValues [⟨2000, JSVal.fin 1⟩, ⟨2000, JSVal.fin 3⟩] ≠ [] := by
    simp [validValues, List.filterMap]
  refine ⟨hne, ?_⟩
  rw [computeStats_exceedance_spec _ 2 hne]
  norm_num [validValues, List.filterMap, List.filter, roundTo]

/-- C6 (amended): when a provided threshold is not finite, the source
still computes the exceedance record (it only guards `!== null`), with
no fault: count 0 and probability 0 for `NaN` or `+Infinity` (every
`v > t` comparison false), count = all valid values and probability 1
for `-Infinity`. -/
theorem computeStats_nonfinite_threshold_spec (pts : List DataPoint) (t : JSNum)
    (hfin : t.isFinite = false) (h : validValues pts ≠ []) :
    ((computeStats pts (some t)).exceedance).isSome = true ∧
    ((t = JSNum.nan ∨ t = JSNum.posInf) →
      (computeStats pts (some t)).exceedance
        = some { threshold := t, probability := 0, count := 0, percentage := 0 }) ∧
    (t = JSNum.negInf →
      (computeStats pts (some t)).exceedance
        = some { threshold := t, probability := 1,
                 count := (validValues pts).length, percentage := 100 }) := by
  unfold computeStats
  cases hv : validValues pts with
  | nil => exact absurd hv h
  | cons v vs =>
    refine ⟨rfl, ?_, ?_⟩
    · intro ht
      have hnil : (v :: vs).filter (fun x => JSNum.gt (JSNum.fin x) t) = [] := by
        rcases ht with rfl | rfl <;>
          exact List.filter_eq_nil.mpr (fun a _ => by simp [JSNum.gt, JSNum.lt])
      simp only [hnil]
      norm_num [roundTo]
    · intro ht
      subst ht
      have hall : (v :: vs).filter (fun x => JSNum.gt (JSNum.fin x) JSNum.negInf)
          = v :: vs := by
        exact List.filter_eq_self.mpr (fun a _ => by simp [JSNum.gt, JSNum.lt])
      simp only [hall]
      have hlen : ((vs.length : ℚ) + 1) ≠ 0 := by positivity
      norm_num [roundTo, div_self hlen]

theorem computeStats_nonfinite_threshold_spec_witness :
    (JSNum.negInf.isFinite = false) ∧
    validValues [⟨2000, JSVal.fin 7⟩] ≠ [] ∧
    (computeStats [⟨2000, JSVal.fin 7⟩] (some JSNum.negInf)).exceedance
      = some { threshold := JSNum.negInf, probability := 1, count := 1, percentage := 100 } := by
  have hne : validValues [⟨2000, JSVal.fin 7⟩] ≠ [] := by
    norm_num [validValues, List.filterMap]
  refine ⟨rfl, hne, ?_⟩
  have h := (computeStats_nonfinite_threshold_spec [⟨2000, JSVal.fin 7⟩]
    JSNum.negInf rfl hne).2.2 rfl
  rw [h]
  norm_num [validValues, List.filterMap]

/-- C7: for every non-empty value list, the linear-interpolation order
statistic at `p = 50` coincides exactly with the median: the average of
the two middle elements for even counts, the single middle element for
odd counts.  (Exact in the rational model, hence within any
floating-point tolerance.) -/
theorem percentileJS_50_eq_medianJS (l : List ℚ) (h : l ≠ []) :
    percentileJS l 50 = medianJS l := by
  have hn : l.length ≠ 0 := fun h0 => h (List.length_eq_zero.mp h0)
  simp only [percentileJS, medianJS]
  rw [if_neg hn]
  rcases Nat.even_or_odd l.length with he | ho
  · obtain ⟨k, hk⟩ := he
    have hk1 : 1 ≤ k := by omega
    have hidx : (50 / 100 : ℚ) * ((l.length : ℚ) - 1) = (k : ℚ) - 1/2 := by
      rw [hk]; push_cast; ring
    have hfl : ⌊(50 / 100 : ℚ) * ((l.length : ℚ) - 1)⌋ = (k : ℤ) - 1 := by
      rw [hidx, Int.floor_eq_iff]
      constructor
      · push_cast; linarith
      · push_cast; linarith
    have hcl : ⌈(50 / 100 : ℚ) * ((l.length : ℚ) - 1)⌉ = (k : ℤ) := by
      rw [hidx, Int.ceil_eq_iff]
      constructor
      · push_cast; linarith
      · push_cast; linarith
    rw [hfl, hcl]
    rw [if_neg (by omega : ¬((k : ℤ) - 1 = (k : ℤ)))]
    have hg1 : getInt? l ((k : ℤ) - 1) = l.get? (k - 1) := by
      unfold getInt?
      rw [if_neg (by omega)]
      congr 1
      omega
    have hg2 : getInt? l ((k : ℤ)) = l.get? k := by
      unfold getInt?
      rw [if_neg (by omega)]
      simp
    have h1 : k - 1 < l.length := by omega
    have h2 : k < l.length := by omega
    have hm0 : l.length % 2 = 0 := by omega
    have hm1 : l.length / 2 = k := by omega
    rw [hg1, hg2, List.get?_eq_get h1, List.get?_eq_get h2, if_pos hm0, hm1,
      List.get?_eq_get h1, List.get?_eq_get h2]
    simp only [Option.some.injEq]
    rw [hidx]
    push_cast
    ring
  · obtain ⟨k, hk⟩ := ho
    have hidx : (50 / 100 : ℚ) * ((l.length : ℚ) - 1) = (k : ℚ) := by
      rw [hk]; push_cast; ring
    have hfl : ⌊(50 / 100 : ℚ) * ((l.length : ℚ) - 1)⌋ = (k : ℤ) := by
      rw [hidx, Int.floor_natCast]
    have hcl : ⌈(50 / 100 : ℚ) * ((l.length : ℚ) - 1)⌉ = (k : ℤ) := by
      rw [hidx, Int.ceil_natCast]
    rw [hfl, hcl, if_pos rfl]
    have hg : getInt? l ((k : ℤ)) = l.get? k := by
      unfold getInt?
      rw [if_neg (by omega)]
      simp
    have hm0 : ¬(l.length % 2 = 0) := by omega
    have hm1 : l.length / 2 = k := by omega
    rw [hg, if_neg hm0, hm1]

theorem percentileJS_50_eq_medianJS_witness :
    percentileJS [1, 2, 3, 4] 50 = medianJS [1, 2, 3, 4] ∧
    medianJS [(1 : ℚ), 2, 3, 4] = some (5 / 2) := by
  constructor
  · exact percentileJS_50_eq_medianJS [1, 2, 3, 4] (by simp)
  · norm_num [medianJS, List.get?]

theorem length_filter_not {α : Type} (p : α → Bool) :
    ∀ l : List α, (l.filter p).length + (l.filter (fun a => !p a)).length = l.length := by
  intro l
  induction l with
  | nil => simp
  | cons x xs ih =>
    by_cases hx : p x <;> simp [List.filter_cons, hx] <;> omega

/-- C9: for every non-empty sample sequence, `assessDataQuality` reports
`missing = total - valid` (equivalently, the number of samples without a
present finite value), `missingPercent = missing/total x 100` rounded to
one decimal place, tier `good` below 10, `fair` below 30, else `poor`,
and a warning exactly when the (rounded) missing percentage exceeds
30. -/
theorem assessDataQuality_spec (pts : List DataPoint) (h : pts ≠ []) :
    (assessDataQuality pts).total = pts.length ∧
    (assessDataQuality pts).valid = (pts.filter (fun d => d.value.isValid)).length ∧
    (assessDataQuality pts).missing
      = pts.length - (pts.filter (fun d => d.value.isValid)).length ∧
    (assessDataQuality pts).missing = (pts.filter (fun d => !d.value.isValid)).length ∧
    (assessDataQuality pts).missingPercent
      = JSNum.fin (roundTo 1
          ((((pts.filter (fun d => !d.value.isValid)).length : ℚ) / pts.length) * 100)) ∧
    (∀ mp : ℚ, (assessDataQuality pts).missingPercent = JSNum.fin mp →
      ((assessDataQuality pts).quality
          = (if mp < 10 then "good" else if mp < 30 then "fair" else "poor") ∧
        (((assessDataQuality pts).warning).isSome ↔ 30 < mp))) := by
  have hsum := length_filter_not (fun d : DataPoint => d.value.isValid) pts
  have hlen : ((pts.length : ℚ)) ≠ 0 := by
    simpa [List.length_eq_zero] using h
  have hmiss : pts.length - (pts.filter (fun d => d.value.isValid)).length
      = (pts.filter (fun d => !d.value.isValid)).length := by omega
  refine ⟨rfl, rfl, rfl, hmiss, ?_, ?_⟩
  · show jsToFixed 1 (JSNum.mul (JSNum.div (JSNum.fin _) (JSNum.fin _)) (JSNum.fin 100)) = _
    rw [hmiss]
    simp [JSNum.div, JSNum.mul, jsToFixed, hlen]
  · intro mp hmp
    have hval : mp = roundTo 1
        ((((pts.filter (fun d => !d.value.isValid)).length : ℚ) / pts.length) * 100) := by
      have : (assessDataQuality pts).missingPercent
          = JSNum.fin (roundTo 1
            ((((pts.filter (fun d => !d.value.isValid)).length : ℚ) / pts.length) * 100)) := by
        show jsToFixed 1 (JSNum.mul (JSNum.div (JSNum.fin _) (JSNum.fin _)) (JSNum.fin 100)) = _
        rw [hmiss]
        simp [JSNum.div, JSNum.mul, jsToFixed, hlen]
      rw [this] at hmp
      exact (JSNum.fin.injEq _ _ ▸ hmp).symm
    have hq : (assessDataQuality pts).quality
        = (if JSNum.lt ((assessDataQuality pts).missingPercent) (JSNum.fin 10)
           then "good"
           else if JSNum.lt ((assessDataQuality pts).missingPercent) (JSNum.fin 30)
           then "fair" else "poor") := rfl
    have hw : (assessDataQuality pts).warning
        = (if JSNum.gt ((assessDataQuality pts).missingPercent) (JSNum.fin 30)
           then some "High percentage of missing data may affect reliability"
           else none) := rfl
    rw [hq, hw, hmp]
    constructor
    · simp [JSNum.lt]
    · by_cases h30 : 30 < mp <;> simp [JSNum.gt, JSNum.lt, h30]

theorem assessDataQuality_spec_witness :
    (assessDataQuality [⟨2000, JSVal.fin 1⟩, ⟨2000, JSVal.null⟩]).quality = "poor" ∧
    ((assessDataQuality [⟨2000, JSVal.fin 1⟩, ⟨2000, JSVal.null⟩]).warning).isSome = true ∧
    (assessDataQuality [⟨2000, JSVal.fin 1⟩, ⟨2000, JSVal.null⟩]).missing = 1 := by
  have h := assessDataQuality_spec [⟨2000, JSVal.fin 1⟩, ⟨2000, JSVal.null⟩] (by simp)
  obtain ⟨-, -, -, hm, hmp, hcond⟩ := h
  have hmp50 : (assessDataQuality [⟨2000, JSVal.fin 1⟩, ⟨2000, JSVal.null⟩]).missingPercent
      = JSNum.fin 50 := by
    rw [hmp]
    norm_num [List.filter, JSVal.isValid, roundTo]
  obtain ⟨hq, hw⟩ := hcond 50 hmp50
  refine ⟨?_, ?_, ?_⟩
  · rw [hq]; norm_num
  · exact hw.mpr (by norm_num)
  · rw [hm]; norm_num [List.filter, JSVal.isValid]

/-- C8: for every year in the inclusive year range and every offset in
the inclusive window `[targetDay - windowDays, targetDay + windowDays]`,
the assembler produces exactly one sample (slot `yi * (2w+1) + oi` of the
output): day `365 + offset` of `year - 1` when `offset < 1`, day
`offset - 365` of `year + 1` when `offset > 365`, day `offset` of `year`
otherwise; in particular `targetDay = 1, windowDays = 3` yields days
363-365 of the prior year and days 1-4 of the current year, for every
year in range. -/
theorem generateMockData_window_spec :
    (∀ dayOfYear window yearStart yearEnd : ℤ, 0 ≤ window → yearStart ≤ yearEnd →
      ((generateMockData dayOfYear window yearStart yearEnd).length
          = (yearEnd - yearStart + 1).toNat * (2 * window + 1).toNat ∧
       ∀ yi oi : ℕ, yi < (yearEnd - yearStart + 1).toNat → oi < (2 * window + 1).toNat →
        (generateMockData dayOfYear window yearStart yearEnd).get?
            (yi * (2 * window + 1).toNat + oi)
          = some (let year := yearStart + (yi : ℤ)
                  let day := dayOfYear - window + (oi : ℤ)
                  if day < 1 then (year - 1, 365 + day)
                  else if day > 365 then (year + 1, day - 365)
                  else (year, day)))) ∧
    (∀ yearStart yearEnd y : ℤ, yearStart ≤ y → y ≤ yearEnd →
      [(y - 1, 363), (y - 1, 364), (y - 1, 365), (y, 1), (y, 2), (y, 3), (y, 4)]
        ⊆ generateMockData 1 3 yearStart yearEnd) := by
  have hinner : ∀ d w year : ℤ,
      ((intRange (d - w) (d + w)).map (fun day => wrapDayYear year day)).length
        = (2 * w + 1).toNat := by
    intro d w year
    rw [List.length_map, length_intRange]
    congr 1
    ring
  constructor
  · intro d w ys ye hw hy
    constructor
    · unfold generateMockData
      rw [length_flatMap_uniform _ ((2 * w + 1).toNat) _ (fun x _ => hinner d w x),
        length_intRange]
    · intro yi oi hyi hoi
      unfold generateMockData
      rw [get?_flatMap_uniform _ ((2 * w + 1).toNat) _ yi oi (ys + (yi : ℤ))
        (fun x _ => hinner d w x) (by rw [get?_intRange _ _ _ hyi]) hoi]
      rw [List.get?_map, get?_intRange]
      · rfl
      · rw [show d + w - (d - w) + 1 = 2 * w + 1 by ring]
        exact hoi
  · intro ys ye y hys hye
    have hy : y ∈ intRange ys ye := mem_intRange hys hye
    have hinner7 : (intRange (1 - 3) (1 + 3)).map (fun day => wrapDayYear y day)
        = [(y - 1, 363), (y - 1, 364), (y - 1, 365), (y, 1), (y, 2), (y, 3), (y, 4)] := by
      have h7 : intRange (1 - 3) (1 + 3) = [-2, -1, 0, 1, 2, 3, 4] := by decide
      rw [h7]
      simp [wrapDayYear]
    intro p hp
    unfold generateMockData
    rw [List.mem_flatMap]
    exact ⟨y, hy, by rw [hinner7]; exact hp⟩

theorem generateMockData_window_spec_witness :
    (generateMockData 1 3 2000 2001).length = 14 ∧
    ((1999 : ℤ), (363 : ℤ)) ∈ generateMockData 1 3 2000 2001 := by
  constructor
  · have h := (generateMockData_window_spec.1 1 3 2000 2001 (by norm_num) (by norm_num)).1
    simpa using h
  · exact generateMockData_window_spec.2 2000 2001 2000 (by norm_num) (by norm_num)
      (by decide)

/-- C4 (amended): `analyzeTrend` groups all samples by calendar year,
but each year's entry counts every sample of that year (missing included)
and its mean is the JS-coerced average of all pushed values: any
`undefined`/`NaN` value makes the year's mean `NaN`, and otherwise
`null` contributes 0 to the sum while still enlarging the denominator.
The year entries are listed in the decimal-string order produced by the
default `sort()` (ascending year order whenever all years have the same
digit count, as 4-digit calendar years do), and the listed years are
exactly the years occurring in the input. -/
theorem analyzeTrend_coerced_spec (pts : List DataPoint) :
    (∀ e ∈ (analyzeTrend pts).yearlyMeans,
      e.count = (pts.filter (fun p => p.year == e.year)).length ∧
      e.mean = (if (yearGroup pts e.year).any isPoison then JSNum.nan
                else JSNum.fin (((yearGroup pts e.year).map valAsQ).sum
                  / (yearGroup pts e.year).length))) ∧
    ((analyzeTrend pts).yearlyMeans.map (fun e => e.year)).Pairwise reprLe ∧
    (∀ y : ℕ, (∃ e ∈ (analyzeTrend pts).yearlyMeans, e.year = y) ↔
      ∃ p ∈ pts, p.year = y) := by
  have hym : (analyzeTrend pts).yearlyMeans
      = (sortByRepr (yearsOf pts)).map (fun y =>
          { year := y, mean := jsMean (yearGroup pts y),
            count := (yearGroup pts y).length }) := rfl
  refine ⟨?_, ?_, ?_⟩
  · intro e he
    rw [hym, List.mem_map] at he
    obtain ⟨y, hy, rfl⟩ := he
    constructor
    · show (yearGroup pts y).length = _
      simp [yearGroup]
    · show jsMean (yearGroup pts y) = _
      have hyin : y ∈ yearsOf pts := (mem_sortByRepr y _).mp hy
      obtain ⟨p, hp, hpy⟩ := (mem_yearsOf pts y).mp hyin
      have hne : yearGroup pts y ≠ [] := by
        unfold yearGroup
        simp only [ne_eq, List.map_eq_nil]
        intro h0
        have hmem : p ∈ pts.filter (fun q => q.year == y) :=
          List.mem_filter.mpr ⟨hp, by simp [hpy]⟩
        rw [h0] at hmem
        exact absurd hmem (List.not_mem_nil p)
      exact jsMean_char _ hne
  · rw [hym, List.map_map]
    have hcomp : ((fun e : YearEntry => e.year) ∘ fun y =>
        ({ year := y, mean := jsMean (yearGroup pts y),
           count := (yearGroup pts y).length } : YearEntry)) = id := rfl
    rw [hcomp, List.map_id]
    exact sortByRepr_pairwise _
  · intro y
    rw [hym]
    constructor
    · rintro ⟨e, he, rfl⟩
      rw [List.mem_map] at he
      obtain ⟨y', hy', rfl⟩ := he
      exact (mem_yearsOf pts _).mp ((mem_sortByRepr _ _).mp hy')
    · intro hp
      exact ⟨_, List.mem_map.mpr
        ⟨y, (mem_sortByRepr _ _).mpr ((mem_yearsOf pts y).mpr hp), rfl⟩, rfl⟩

theorem analyzeTrend_coerced_spec_witness :
    ({ year := 2000, mean := JSNum.fin 5, count := 2 } : YearEntry).count
      = (([⟨2000, JSVal.null⟩, ⟨2000, JSVal.fin 10⟩] : List DataPoint).filter
          (fun p => p.year == 2000)).length ∧
    ({ year := 2000, mean := JSNum.fin 5, count := 2 } : YearEntry).mean
      = (if (yearGroup [⟨2000, JSVal.null⟩, ⟨2000, JSVal.fin 10⟩] 2000).any isPoison
         then JSNum.nan
         else JSNum.fin
           (((yearGroup [⟨2000, JSVal.null⟩, ⟨2000, JSVal.fin 10⟩] 2000).map valAsQ).sum
             / (yearGroup [⟨2000, JSVal.null⟩, ⟨2000, JSVal.fin 10⟩] 2000).length)) := by
  have hmem : ({ year := 2000, mean := JSNum.fin 5, count := 2 } : YearEntry)
      ∈ (analyzeTrend [⟨2000, JSVal.null⟩, ⟨2000, JSVal.fin 10⟩]).yearlyMeans := by
    norm_num [analyzeTrend, yearsOf, insertYear, sortByRepr, insertByRepr, yearGroup,
      jsMean, JSVal.toNum, JSNum.add, JSNum.div, List.filter]
  exact (analyzeTrend_coerced_spec [⟨2000, JSVal.null⟩, ⟨2000, JSVal.fin 10⟩]).1 _ hmem
